import Mathlib

/-!
Shallow embedding of the task-manager backend (`src/server.js`):
the Mongoose task schema, the `validateTask` middleware, and the
Express route handlers for create / get / list / update / delete / stats.
Records are modelled as a Lean structure, the document collection as a
`List Task`, the clock as an explicit `now : Nat` parameter, and
JavaScript string truthiness (`!title`, `priority && …`, `status || 'pending'`)
is modelled explicitly on `Option String` fields.
-/

namespace TaskManager

/-- JavaScript `String.prototype.trim`: strip leading and trailing
whitespace characters. -/
def jsTrim (s : String) : String :=
  ⟨((s.data.dropWhile Char.isWhitespace).reverse.dropWhile Char.isWhitespace).reverse⟩

/-- JavaScript truthiness of an optional string field: an absent field and
the empty string are falsy, every other string is truthy. -/
def truthy : Option String → Bool
  | none => false
  | some s => s != ""

/-- A raw request body as the routes destructure it:
`const { title, description, priority, status } = req.body`. -/
structure Payload where
  title : Option String
  description : Option String
  priority : Option String
  status : Option String
deriving DecidableEq, Repr

/-- The failure kinds the backend produces on these paths:
the 400 responses of `validateTask`, Mongoose maxlength validation
(`SchemaViolation` with the offending fields), and the 404 responses. -/
inductive Err where
  | MissingField : String → Err
  | InvalidEnum : String → Err
  | SchemaViolation : List String → Err
  | NotFound : Err
deriving DecidableEq, Repr

instance {ε α : Type} [DecidableEq ε] [DecidableEq α] : DecidableEq (Except ε α)
  | .error e, .error f =>
    if h : e = f then .isTrue (by rw [h])
    else .isFalse (by intro he; injection he; exact h ‹_›)
  | .error _, .ok _ => .isFalse (by intro h; cases h)
  | .ok _, .error _ => .isFalse (by intro h; cases h)
  | .ok a, .ok b =>
    if h : a = b then .isTrue (by rw [h])
    else .isFalse (by intro he; injection he; exact h ‹_›)

/-- `enum: ['low', 'medium', 'high']` in the task schema. -/
def priorityEnum : List String := ["low", "medium", "high"]

/-- `enum: ['pending', 'in-progress', 'completed']` in the task schema. -/
def statusEnum : List String := ["pending", "in-progress", "completed"]

/-- The `validateTask` middleware (server.js lines 80–102):
`!title || title.trim().length === 0` → 400 missing title;
`priority && !['low','medium','high'].includes(priority)` → 400 invalid priority;
`status && !['pending','in-progress','completed'].includes(status)` → 400 invalid status;
otherwise `next()`. -/
def validateTask (p : Payload) : Except Err Unit :=
  if ¬ truthy p.title ∨ jsTrim (p.title.getD "") = "" then
    .error (.MissingField "title")
  else if truthy p.priority ∧ (p.priority.getD "") ∉ priorityEnum then
    .error (.InvalidEnum "priority")
  else if truthy p.status ∧ (p.status.getD "") ∉ statusEnum then
    .error (.InvalidEnum "status")
  else
    .ok ()

/-- A stored task document: the schema fields plus the store-assigned `_id`. -/
structure Task where
  id : Nat
  title : String
  description : String
  priority : String
  status : String
  createdAt : Nat
  updatedAt : Nat
deriving DecidableEq, Repr

/-- Mongoose maxlength validation on save/update (`maxlength: 200` on title,
`maxlength: 1000` on description): the list of offending fields. -/
def schemaViolations (title description : String) : List String :=
  (if title.length > 200 then ["title"] else []) ++
  (if description.length > 1000 then ["description"] else [])

/-- The document built by `POST /api/tasks`:
`title: title.trim(), description: description ? description.trim() : '',
priority: priority || 'medium', status: status || 'pending'`, with
`createdAt` defaulted to `Date.now` and `updatedAt` set by the
pre-save hook, both reading the clock at `now`. -/
def buildTask (p : Payload) (newId now : Nat) : Task :=
  { id := newId
    title := jsTrim (p.title.getD "")
    description := if truthy p.description then jsTrim (p.description.getD "") else ""
    priority := if truthy p.priority then p.priority.getD "" else "medium"
    status := if truthy p.status then p.status.getD "" else "pending"
    createdAt := now
    updatedAt := now }

/-- `POST /api/tasks`: run `validateTask`, build the document, let Mongoose
validate maxlengths on save, and on success append it to the collection.
Returns the route's result together with the collection after the call. -/
def createTask (db : List Task) (p : Payload) (newId now : Nat) :
    Except Err Task × List Task :=
  match validateTask p with
  | .error e => (.error e, db)
  | .ok _ =>
    let t := buildTask p newId now
    match schemaViolations t.title t.description with
    | [] => (.ok t, db ++ [t])
    | vs => (.error (.SchemaViolation vs), db)

/-- `Task.findById`: the first (in Mongo, unique) document with this `_id`. -/
def findById (db : List Task) (id : Nat) : Option Task :=
  db.find? (fun t => t.id == id)

/-- `GET /api/tasks/:id`: 404 when `findById` yields nothing. -/
def getTask (db : List Task) (id : Nat) : Except Err Task :=
  match findById db id with
  | none => .error .NotFound
  | some t => .ok t

/-- The `updateData` applied by `PUT /api/tasks/:id` together with the
pre-findOneAndUpdate hook setting `updatedAt = Date.now()`:
`_id` and `createdAt` are not part of the update and stay as stored. -/
def applyUpdate (p : Payload) (now : Nat) (t : Task) : Task :=
  { t with
    title := jsTrim (p.title.getD "")
    description := if truthy p.description then jsTrim (p.description.getD "") else ""
    priority := if truthy p.priority then p.priority.getD "" else "medium"
    status := if truthy p.status then p.status.getD "" else "pending"
    updatedAt := now }

/-- Replace the first document with the given `_id` by `f` of it
(`findByIdAndUpdate` touches exactly one document). -/
def updateById (db : List Task) (id : Nat) (f : Task → Task) : List Task :=
  match db with
  | [] => []
  | t :: ts => if t.id == id then f t :: ts else t :: updateById ts id f

/-- `PUT /api/tasks/:id`: run `validateTask`, then `findByIdAndUpdate` with
`runValidators: true` (update validation happens before the query executes)
and `new: true` (the updated document is returned); 404 when no document
has this `_id`. -/
def updateTask (db : List Task) (id : Nat) (p : Payload) (now : Nat) :
    Except Err Task × List Task :=
  match validateTask p with
  | .error e => (.error e, db)
  | .ok _ =>
    let title := jsTrim (p.title.getD "")
    let description := if truthy p.description then jsTrim (p.description.getD "") else ""
    match schemaViolations title description with
    | [] =>
      match findById db id with
      | none => (.error .NotFound, db)
      | some t => (.ok (applyUpdate p now t), updateById db id (applyUpdate p now))
    | vs => (.error (.SchemaViolation vs), db)

/-- `DELETE /api/tasks/:id`: `findByIdAndDelete` removes the one matching
document and returns it; 404 when no document has this `_id`. -/
def deleteTask (db : List Task) (id : Nat) : Except Err Task × List Task :=
  match findById db id with
  | none => (.error .NotFound, db)
  | some t => (.ok t, db.eraseP (fun u => u.id == id))

/-- The filter object of `GET /api/tasks`: a `status`/`priority` query
parameter constrains the result only when it is truthy and not `'all'`. -/
def matchesFilter (status priority : Option String) (t : Task) : Bool :=
  (if truthy status ∧ status.getD "" ≠ "all" then t.status == status.getD "" else true) &&
  (if truthy priority ∧ priority.getD "" ≠ "all" then t.priority == priority.getD "" else true)

/-- `sort[sortBy] = order === 'asc' ? 1 : -1`. -/
def sortDir (order : String) : Int :=
  if order = "asc" then 1 else -1

/-- The value of a named field of a task document, as the store's sort
sees it: an unknown field name is simply missing from every document. -/
inductive FieldVal where
  | missing : FieldVal
  | num : Nat → FieldVal
  | str : String → FieldVal
deriving DecidableEq, Repr

/-- Field access by name for the sortable schema fields. -/
def getField (t : Task) (f : String) : FieldVal :=
  if f = "title" then .str t.title
  else if f = "description" then .str t.description
  else if f = "priority" then .str t.priority
  else if f = "status" then .str t.status
  else if f = "createdAt" then .num t.createdAt
  else if f = "updatedAt" then .num t.updatedAt
  else .missing

/-- The store's ordering of field values: missing before numbers before
strings, numbers and strings each in their natural order. -/
def fieldLe : FieldVal → FieldVal → Bool
  | .missing, _ => true
  | .num _, .missing => false
  | .num x, .num y => x ≤ y
  | .num _, .str _ => true
  | .str _, .missing => false
  | .str _, .num _ => false
  | .str x, .str y => decide (x ≤ y)

/-- The sort comparison of `GET /api/tasks`: key by the requested field,
ascending when the sort specification is `{sortBy: 1}`, descending
when it is `{sortBy: -1}`. -/
def taskLe (sortBy order : String) (a b : Task) : Bool :=
  if sortDir order = 1 then fieldLe (getField a sortBy) (getField b sortBy)
  else fieldLe (getField b sortBy) (getField a sortBy)

/-- Insert a task into an already sorted run (stable). -/
def ordInsert (le : Task → Task → Bool) (t : Task) : List Task → List Task
  | [] => [t]
  | u :: us => if le t u then t :: u :: us else u :: ordInsert le t us

/-- Stable insertion sort of the result set. -/
def sortTasks (le : Task → Task → Bool) : List Task → List Task
  | [] => []
  | t :: ts => ordInsert le t (sortTasks le ts)

/-- `GET /api/tasks`: filter, sort, and return the documents with
`count: tasks.length`. -/
def listTasks (db : List Task) (status priority : Option String)
    (sortBy order : String) : List Task × Nat :=
  let tasks := sortTasks (taskLe sortBy order) (db.filter (matchesFilter status priority))
  (tasks, tasks.length)

/-- `Task.countDocuments({status: s})`. -/
def countStatus (db : List Task) (s : String) : Nat :=
  (db.filter (fun t => t.status == s)).length

/-- Number of documents with the given priority value. -/
def priorityCount (db : List Task) (p : String) : Nat :=
  (db.filter (fun t => t.priority == p)).length

/-- The `$group: {_id: '$priority', count: {$sum: 1}}` aggregate, reduced to
an object: one entry per priority value that occurs, with its count. -/
def priorityGroups (db : List Task) : List (String × Nat) :=
  ((db.map Task.priority).dedup).map (fun p => (p, priorityCount db p))

/-- The payload of `GET /api/stats`. -/
structure Stats where
  total : Nat
  completed : Nat
  pending : Nat
  inProgress : Nat
  priority : List (String × Nat)
deriving DecidableEq, Repr

/-- `GET /api/stats`: total and per-status `countDocuments` plus the
priority aggregate. -/
def getStats (db : List Task) : Stats :=
  { total := db.length
    completed := countStatus db "completed"
    pending := countStatus db "pending"
    inProgress := countStatus db "in-progress"
    priority := priorityGroups db }

/-! ### Helper lemmas -/

theorem ordInsert_perm (le : Task → Task → Bool) (t : Task) :
    ∀ l : List Task, (ordInsert le t l).Perm (t :: l) := by
  intro l
  induction l with
  | nil => simp [ordInsert]
  | cons u us ih =>
    unfold ordInsert
    by_cases h : le t u
    · rw [if_pos h]
    · rw [if_neg h]
      exact (ih.cons u).trans (List.Perm.swap t u us)

theorem sortTasks_perm (le : Task → Task → Bool) :
    ∀ l : List Task, (sortTasks le l).Perm l := by
  intro l
  induction l with
  | nil => simp [sortTasks]
  | cons t ts ih =>
    unfold sortTasks
    exact (ordInsert_perm le t (sortTasks le ts)).trans (ih.cons t)

theorem findById_eq_none_of_not_mem (db : List Task) (id : Nat)
    (h : id ∉ db.map Task.id) : findById db id = none := by
  unfold findById
  rw [List.find?_eq_none]
  intro t ht
  have : t.id ∈ db.map Task.id := List.mem_map_of_mem Task.id ht
  simp only [beq_iff_eq]
  intro he
  exact h (he ▸ this)

theorem findById_eraseP (db : List Task) (id : Nat)
    (hnd : (db.map Task.id).Nodup) :
    findById (db.eraseP (fun u => u.id == id)) id = none := by
  induction db with
  | nil => rfl
  | cons t ts ih =>
    rw [List.map_cons, List.nodup_cons] at hnd
    rw [List.eraseP_cons]
    by_cases h : t.id = id
    · rw [show (t.id == id) = true by simp [h], cond_true]
      exact findById_eq_none_of_not_mem ts id (h ▸ hnd.1)
    · rw [show (t.id == id) = false by simp [h], cond_false]
      unfold findById
      rw [List.find?_cons_of_neg _ (by simp [h])]
      exact ih hnd.2

theorem findById_updateById (db : List Task) (id : Nat) (f : Task → Task)
    (hf : ∀ u, (f u).id = u.id) (t : Task) (h : findById db id = some t) :
    findById (updateById db id f) id = some (f t) := by
  induction db with
  | nil => simp [findById] at h
  | cons u us ih =>
    unfold findById at h ⊢
    by_cases hu : u.id = id
    · rw [List.find?_cons_of_pos _ (by simp [hu])] at h
      injection h with h
      subst h
      unfold updateById
      rw [if_pos (by simp [hu]), List.find?_cons_of_pos _ (by simp [hf, hu])]
    · rw [List.find?_cons_of_neg _ (by simp [hu])] at h
      unfold updateById
      rw [if_neg (by simp [hu]), List.find?_cons_of_neg _ (by simp [hu])]
      exact ih h

theorem sum_indicator_zero {α : Type} [DecidableEq α] (x : α) :
    ∀ d : List α, x ∉ d → (d.map (fun a => if x = a then 1 else 0)).sum = 0 := by
  intro d
  induction d with
  | nil => intro; rfl
  | cons b bs ih =>
    intro hx
    rw [List.mem_cons, not_or] at hx
    rw [List.map_cons, List.sum_cons, if_neg hx.1, ih hx.2]

theorem sum_indicator_one {α : Type} [DecidableEq α] (x : α) :
    ∀ d : List α, d.Nodup → x ∈ d →
      (d.map (fun a => if x = a then 1 else 0)).sum = 1 := by
  intro d
  induction d with
  | nil => intro _ h; cases h
  | cons b bs ih =>
    intro hnd hx
    rw [List.nodup_cons] at hnd
    rw [List.map_cons, List.sum_cons]
    rcases List.mem_cons.1 hx with h | h
    · rw [if_pos h, sum_indicator_zero x bs (h ▸ hnd.1)]
    · have hne : x ≠ b := by
        intro he
        exact hnd.1 (he ▸ h)
      rw [if_neg hne, ih hnd.2 h]

theorem sum_map_add_nat {α : Type} (f g : α → Nat) :
    ∀ l : List α, (l.map (fun a => f a + g a)).sum = (l.map f).sum + (l.map g).sum := by
  intro l
  induction l with
  | nil => rfl
  | cons a l ih =>
    simp only [List.map_cons, List.sum_cons, ih]
    omega

theorem sum_countP_of_nodup {α : Type} [DecidableEq α] (d : List α) (hd : d.Nodup) :
    ∀ l : List α, (∀ x ∈ l, x ∈ d) →
      (d.map (fun a => l.countP (fun x => x == a))).sum = l.length := by
  intro l
  induction l with
  | nil =>
    intro
    simp [List.countP_nil]
  | cons x xs ih =>
    intro hsub
    have hx : x ∈ d := hsub x (List.mem_cons_self x xs)
    have hxs := ih (fun y hy => hsub y (List.mem_cons_of_mem x hy))
    have hcount : ∀ a : α, (x :: xs).countP (fun y => y == a) =
        xs.countP (fun y => y == a) + (if x = a then 1 else 0) := by
      intro a
      rw [List.countP_cons]
      by_cases h : x = a
      · simp [h]
      · simp [h]
    simp only [hcount]
    rw [sum_map_add_nat (fun a => xs.countP (fun y => y == a))
          (fun a => if x = a then 1 else 0) d,
        hxs, sum_indicator_one x d hd hx, List.length_cons]

theorem priorityCount_eq_countP (db : List Task) (p : String) :
    priorityCount db p = (db.map Task.priority).countP (fun x => x == p) := by
  unfold priorityCount
  rw [List.countP_map, ← List.countP_eq_length_filter]
  rfl

theorem sum_priorityGroups (db : List Task) :
    ((priorityGroups db).map Prod.snd).sum = db.length := by
  unfold priorityGroups
  rw [List.map_map]
  have : (Prod.snd ∘ fun p => (p, priorityCount db p)) =
      fun p => (db.map Task.priority).countP (fun x => x == p) := by
    funext p
    exact priorityCount_eq_countP db p
  rw [this,
      sum_countP_of_nodup (db.map Task.priority).dedup (List.nodup_dedup _)
        (db.map Task.priority) (fun x hx => List.mem_dedup.2 hx),
      List.length_map]

theorem length_eq_status_counts (db : List Task)
    (h : ∀ t ∈ db, t.status ∈ statusEnum) :
    db.length = countStatus db "completed" + countStatus db "pending" +
      countStatus db "in-progress" := by
  induction db with
  | nil => rfl
  | cons t ts ih =>
    have ht := h t (List.mem_cons_self t ts)
    have ihs := ih (fun u hu => h u (List.mem_cons_of_mem t hu))
    unfold countStatus at ihs ⊢
    simp only [statusEnum, List.mem_cons, List.not_mem_nil, or_false] at ht
    rcases ht with h1 | h1 | h1 <;>
      simp only [List.filter_cons, h1] <;>
      simp only [beq_iff_eq, reduceIte, List.length_cons, String.reduceEq] <;>
      omega

/-! ### Claim theorems -/

/-- C1, counterexample: the claim says a supplied `priority` outside
{low, medium, high} fails with InvalidEnum("priority"), but the payload
`{title: "task", priority: ""}` supplies the priority `""`, which is not in
the enumeration, and `validateTask` nevertheless passes it (the JavaScript
guard `priority && …` skips falsy values). -/
theorem c1_counterexample :
    validateTask ⟨some "task", none, some "", none⟩ = .ok () ∧
    "" ∉ priorityEnum := by
  constructor
  · decide
  · decide

/-- C1 (amended): validation checks run in a fixed order and return on the
first failure — missing/blank title, then priority, then status — where a
`priority`/`status` counts as supplied only when it is a non-empty string
(an empty string is falsy and is skipped); and both create and update
reject exactly as `validateTask` does. -/
theorem c1_validation_order (db : List Task) (p : Payload) (id newId now : Nat) (e : Err) :
    ((¬ truthy p.title ∨ jsTrim (p.title.getD "") = "") →
      validateTask p = .error (.MissingField "title")) ∧
    (truthy p.title → jsTrim (p.title.getD "") ≠ "" →
      truthy p.priority → (p.priority.getD "") ∉ priorityEnum →
      validateTask p = .error (.InvalidEnum "priority")) ∧
    (truthy p.title → jsTrim (p.title.getD "") ≠ "" →
      (truthy p.priority → (p.priority.getD "") ∈ priorityEnum) →
      truthy p.status → (p.status.getD "") ∉ statusEnum →
      validateTask p = .error (.InvalidEnum "status")) ∧
    (truthy p.title → jsTrim (p.title.getD "") ≠ "" →
      (truthy p.priority → (p.priority.getD "") ∈ priorityEnum) →
      (truthy p.status → (p.status.getD "") ∈ statusEnum) →
      validateTask p = .ok ()) ∧
    (validateTask p = .error e →
      (createTask db p newId now).1 = .error e ∧
      (updateTask db id p now).1 = .error e) := by
  refine ⟨?_, ?_, ?_, ?_, ?_⟩
  · intro h
    unfold validateTask
    rw [if_pos h]
  · intro h1 h2 h3 h4
    unfold validateTask
    rw [if_neg (by rintro (h | h) <;> [exact h h1; exact h2 h]), if_pos ⟨h3, h4⟩]
  · intro h1 h2 hp h3 h4
    unfold validateTask
    rw [if_neg (by rintro (h | h) <;> [exact h h1; exact h2 h]),
        if_neg (by rintro ⟨ht, hm⟩; exact hm (hp ht)), if_pos ⟨h3, h4⟩]
  · intro h1 h2 hp hs
    unfold validateTask
    rw [if_neg (by rintro (h | h) <;> [exact h h1; exact h2 h]),
        if_neg (by rintro ⟨ht, hm⟩; exact hm (hp ht)),
        if_neg (by rintro ⟨ht, hm⟩; exact hm (hs ht))]
  · intro hv
    constructor
    · unfold createTask
      rw [hv]
    · unfold updateTask
      rw [hv]

/-- C1, witness: the order at work on concrete payloads — a blank title is
reported before the invalid priority; with a valid title the invalid
priority is reported before the invalid status; and a failing `validateTask`
makes create fail identically with the store untouched. -/
theorem c1_validation_order_witness :
    validateTask ⟨some " ", none, some "bogus", none⟩ = .error (.MissingField "title") ∧
    validateTask ⟨some "t", none, some "urgent", some "wrong"⟩ = .error (.InvalidEnum "priority") ∧
    (createTask [] ⟨none, none, none, none⟩ 0 0).1 = .error (.MissingField "title") := by
  refine ⟨?_, ?_, ?_⟩
  · exact (c1_validation_order [] ⟨some " ", none, some "bogus", none⟩ 0 0 0
      (.MissingField "title")).1 (by decide)
  · exact (c1_validation_order [] ⟨some "t", none, some "urgent", some "wrong"⟩ 0 0 0
      (.InvalidEnum "priority")).2.1 (by decide) (by decide) (by decide) (by decide)
  · exact ((c1_validation_order [] ⟨none, none, none, none⟩ 0 0 0
      (.MissingField "title")).2.2.2.2 (by decide)).1

/-- C2: a payload that passes validation and respects the schema length
limits creates successfully, and the stored record has `createdAt` and
`updatedAt` both equal to the clock value of the call. -/
theorem c2_create_timestamps (db : List Task) (p : Payload) (newId now : Nat)
    (hv : validateTask p = .ok ())
    (ht : (jsTrim (p.title.getD "")).length ≤ 200)
    (hd : ∀ d, p.description = some d → (jsTrim d).length ≤ 1000) :
    ∃ t, (createTask db p newId now).1 = .ok t ∧
      t.createdAt = now ∧ t.updatedAt = now ∧ t.createdAt = t.updatedAt := by
  have hdesc : (if truthy p.description then jsTrim (p.description.getD "") else "").length ≤ 1000 := by
    cases hpd : p.description with
    | none => simp [truthy]
    | some d =>
      by_cases hne : d = ""
      · simp [truthy, hne]
      · simpa [truthy, hne] using hd d hpd
  have hsv : schemaViolations (jsTrim (p.title.getD ""))
      (if truthy p.description then jsTrim (p.description.getD "") else "") = [] := by
    unfold schemaViolations
    rw [if_neg (by omega), if_neg (by omega)]
    rfl
  refine ⟨buildTask p newId now, ?_, rfl, rfl, rfl⟩
  unfold createTask
  rw [hv]
  simp only [buildTask]
  rw [hsv]

/-- C2, witness: creating `{title: "Write spec", priority: "high"}` at
clock value 5 yields a record timestamped 5/5. -/
theorem c2_create_timestamps_witness :
    ∃ t, (createTask [] ⟨some "Write spec", none, some "high", none⟩ 0 5).1 = .ok t ∧
      t.createdAt = 5 ∧ t.updatedAt = 5 ∧ t.createdAt = t.updatedAt :=
  c2_create_timestamps [] ⟨some "Write spec", none, some "high", none⟩ 0 5
    (by decide) (by decide) (fun d h => nomatch h)

/-- C3: updating a stored record with a valid replacement payload returns
the updated record with the same `id` and `createdAt`, sets `updatedAt` to
the clock value of the call (≥ the previous `updatedAt` under a monotone
clock), and stores that record under the same id. -/
theorem c3_update_frame (db : List Task) (id : Nat) (p : Payload) (now : Nat) (t : Task)
    (hv : validateTask p = .ok ())
    (hsv : schemaViolations (jsTrim (p.title.getD ""))
      (if truthy p.description then jsTrim (p.description.getD "") else "") = [])
    (hfind : findById db id = some t)
    (hclock : t.updatedAt ≤ now) :
    (updateTask db id p now).1 = .ok (applyUpdate p now t) ∧
    (applyUpdate p now t).id = t.id ∧
    (applyUpdate p now t).createdAt = t.createdAt ∧
    (applyUpdate p now t).updatedAt = now ∧
    t.updatedAt ≤ (applyUpdate p now t).updatedAt ∧
    findById (updateTask db id p now).2 id = some (applyUpdate p now t) := by
  have hrun : updateTask db id p now =
      (.ok (applyUpdate p now t), updateById db id (applyUpdate p now)) := by
    unfold updateTask
    rw [hv]
    simp only
    rw [hsv, hfind]
  refine ⟨by rw [hrun], rfl, rfl, rfl, hclock, ?_⟩
  rw [hrun]
  exact findById_updateById db id (applyUpdate p now) (fun u => rfl) t hfind

/-- C3, witness: updating the stored record with id 0 at clock value 9
keeps id and createdAt and moves updatedAt from 2 up to 9. -/
theorem c3_update_frame_witness :
    (updateTask [⟨0, "old", "", "low", "completed", 1, 2⟩] 0
        ⟨some "new", none, none, none⟩ 9).1 =
      .ok (applyUpdate ⟨some "new", none, none, none⟩ 9 ⟨0, "old", "", "low", "completed", 1, 2⟩) ∧
    (applyUpdate ⟨some "new", none, none, none⟩ 9 ⟨0, "old", "", "low", "completed", 1, 2⟩).createdAt = 1 ∧
    (applyUpdate ⟨some "new", none, none, none⟩ 9 ⟨0, "old", "", "low", "completed", 1, 2⟩).updatedAt = 9 := by
  have h := c3_update_frame [⟨0, "old", "", "low", "completed", 1, 2⟩] 0
    ⟨some "new", none, none, none⟩ 9 ⟨0, "old", "", "low", "completed", 1, 2⟩
    (by decide) (by decide) (by decide) (by decide)
  exact ⟨h.1, h.2.2.1, h.2.2.2.1⟩

/-- C4: when every stored record's `status` and `priority` lie in their
enumerations, the stats result satisfies `total = completed + pending +
inProgress`, and the values of the `priority` mapping sum to `total`. -/
theorem c4_stats_totals (db : List Task)
    (hs : ∀ t ∈ db, t.status ∈ statusEnum)
    (hp : ∀ t ∈ db, t.priority ∈ priorityEnum) :
    (getStats db).total =
      (getStats db).completed + (getStats db).pending + (getStats db).inProgress ∧
    ((getStats db).priority.map Prod.snd).sum = (getStats db).total := by
  constructor
  · exact length_eq_status_counts db hs
  · exact sum_priorityGroups db

/-- C4, witness: the identities on a concrete three-record store. -/
theorem c4_stats_totals_witness :
    (getStats [⟨0, "a", "", "high", "completed", 0, 0⟩,
               ⟨1, "b", "", "high", "pending", 0, 0⟩,
               ⟨2, "c", "", "low", "pending", 0, 0⟩]).total =
      (getStats [⟨0, "a", "", "high", "completed", 0, 0⟩,
               ⟨1, "b", "", "high", "pending", 0, 0⟩,
               ⟨2, "c", "", "low", "pending", 0, 0⟩]).completed +
      (getStats [⟨0, "a", "", "high", "completed", 0, 0⟩,
               ⟨1, "b", "", "high", "pending", 0, 0⟩,
               ⟨2, "c", "", "low", "pending", 0, 0⟩]).pending +
      (getStats [⟨0, "a", "", "high", "completed", 0, 0⟩,
               ⟨1, "b", "", "high", "pending", 0, 0⟩,
               ⟨2, "c", "", "low", "pending", 0, 0⟩]).inProgress ∧
    ((getStats [⟨0, "a", "", "high", "completed", 0, 0⟩,
               ⟨1, "b", "", "high", "pending", 0, 0⟩,
               ⟨2, "c", "", "low", "pending", 0, 0⟩]).priority.map Prod.snd).sum =
      (getStats [⟨0, "a", "", "high", "completed", 0, 0⟩,
               ⟨1, "b", "", "high", "pending", 0, 0⟩,
               ⟨2, "c", "", "low", "pending", 0, 0⟩]).total :=
  c4_stats_totals _ (by decide) (by decide)

/-- C5: the list operation returns a permutation of the records matching
the conjunction of the supplied filters (absent or "all" imposing no
constraint); in particular `{status: "completed"}` returns exactly the
completed records and `{status: "all"}` returns every record; and the
reported count is the length of the returned sequence. -/
theorem c5_list_filter (db : List Task) (status priority : Option String)
    (sortBy order : String) :
    ((listTasks db status priority sortBy order).1.Perm
      (db.filter (matchesFilter status priority))) ∧
    (∀ t, t ∈ (listTasks db status priority sortBy order).1 ↔
      t ∈ db ∧ matchesFilter status priority t) ∧
    (∀ t, t ∈ (listTasks db (some "completed") none sortBy order).1 ↔
      t ∈ db ∧ t.status = "completed") ∧
    (∀ t, t ∈ (listTasks db (some "all") none sortBy order).1 ↔ t ∈ db) ∧
    (listTasks db status priority sortBy order).2 =
      (listTasks db status priority sortBy order).1.length := by
  have hperm : ∀ (st pr : Option String),
      (listTasks db st pr sortBy order).1.Perm (db.filter (matchesFilter st pr)) :=
    fun st pr => sortTasks_perm (taskLe sortBy order) (db.filter (matchesFilter st pr))
  have hmem : ∀ (st pr : Option String) (t : Task),
      t ∈ (listTasks db st pr sortBy order).1 ↔ t ∈ db ∧ matchesFilter st pr t := by
    intro st pr t
    rw [(hperm st pr).mem_iff, List.mem_filter]
  refine ⟨hperm status priority, hmem status priority, ?_, ?_, rfl⟩
  · intro t
    rw [hmem (some "completed") none t]
    unfold matchesFilter truthy
    simp
  · intro t
    rw [hmem (some "all") none t]
    unfold matchesFilter truthy
    simp

/-- C6: the `priority` entry of the stats result contains the pair `(p, n)`
exactly when some stored record has priority `p` and `n` is the exact
number of such records; a priority with zero occurrences has no entry. -/
theorem c6_priority_mapping (db : List Task) (p : String) (n : Nat) :
    ((p, n) ∈ (getStats db).priority ↔
      ((∃ t ∈ db, t.priority = p) ∧ n = priorityCount db p)) ∧
    ((∃ t ∈ db, t.priority = p) →
      (p, priorityCount db p) ∈ (getStats db).priority ∧ priorityCount db p ≠ 0) ∧
    ((¬ ∃ t ∈ db, t.priority = p) → ∀ m, (p, m) ∉ (getStats db).priority) := by
  have hmem : ∀ m : Nat, (p, m) ∈ (getStats db).priority ↔
      ((∃ t ∈ db, t.priority = p) ∧ m = priorityCount db p) := by
    intro m
    show (p, m) ∈ priorityGroups db ↔ _
    unfold priorityGroups
    rw [List.mem_map]
    constructor
    · rintro ⟨q, hq, he⟩
      rw [Prod.mk.injEq] at he
      obtain ⟨rfl, rfl⟩ := he
      rw [List.mem_dedup, List.mem_map] at hq
      obtain ⟨t, ht, rfl⟩ := hq
      exact ⟨⟨t, ht, rfl⟩, rfl⟩
    · rintro ⟨⟨t, ht, rfl⟩, rfl⟩
      exact ⟨t.priority, List.mem_dedup.2 (List.mem_map_of_mem Task.priority ht), rfl⟩
  refine ⟨hmem n, ?_, ?_⟩
  · intro hex
    refine ⟨(hmem (priorityCount db p)).2 ⟨hex, rfl⟩, ?_⟩
    obtain ⟨t, ht, hpt⟩ := hex
    unfold priorityCount
    have : t ∈ db.filter (fun u => u.priority == p) :=
      List.mem_filter.2 ⟨ht, by simp [hpt]⟩
    intro hlen
    rw [List.length_eq_zero] at hlen
    rw [hlen] at this
    cases this
  · intro hex m hm
    exact hex ((hmem m).1 hm).1

/-- C6, witness: with one high-priority and one low-priority record, the
mapping holds `("high", 1)` with a positive count, and has no entry for
`"medium"`, which does not occur. -/
theorem c6_priority_mapping_witness :
    (("high", priorityCount [⟨0, "a", "", "high", "pending", 0, 0⟩,
        ⟨1, "b", "", "low", "pending", 0, 0⟩] "high") ∈
      (getStats [⟨0, "a", "", "high", "pending", 0, 0⟩,
        ⟨1, "b", "", "low", "pending", 0, 0⟩]).priority ∧
      priorityCount [⟨0, "a", "", "high", "pending", 0, 0⟩,
        ⟨1, "b", "", "low", "pending", 0, 0⟩] "high" ≠ 0) ∧
    (∀ m, ("medium", m) ∉ (getStats [⟨0, "a", "", "high", "pending", 0, 0⟩,
        ⟨1, "b", "", "low", "pending", 0, 0⟩]).priority) :=
  ⟨(c6_priority_mapping [⟨0, "a", "", "high", "pending", 0, 0⟩,
      ⟨1, "b", "", "low", "pending", 0, 0⟩] "high" 0).2.1 (by decide),
   (c6_priority_mapping [⟨0, "a", "", "high", "pending", 0, 0⟩,
      ⟨1, "b", "", "low", "pending", 0, 0⟩] "medium" 0).2.2 (by decide)⟩

theorem createTask_ok_inv (db : List Task) (p : Payload) (newId now : Nat) (t : Task)
    (h : (createTask db p newId now).1 = .ok t) : t = buildTask p newId now := by
  unfold createTask at h
  split at h
  · simp at h
  · simp only at h
    split at h
    · simp only at h
      exact (Except.ok.inj h).symm
    · simp at h

theorem updateTask_ok_inv (db : List Task) (id : Nat) (p : Payload) (now : Nat) (t : Task)
    (h : (updateTask db id p now).1 = .ok t) :
    ∃ u, findById db id = some u ∧ t = applyUpdate p now u := by
  unfold updateTask at h
  split at h
  · simp at h
  · simp only at h
    split at h
    · split at h
      · simp at h
      · rename_i u heq
        simp only at h
        exact ⟨u, heq, (Except.ok.inj h).symm⟩
    · simp at h

/-- C7: every record returned by a successful create or update has its
`title`/`description` trimmed and its optional fields defaulted —
`description` to `""`, `priority` to `"medium"`, `status` to `"pending"`
when not supplied; in particular an update omitting `status` or `priority`
resets that field to its default instead of keeping the stored value. -/
theorem c7_defaults (db : List Task) (id : Nat) (p : Payload) (newId now : Nat) (t : Task) :
    ((createTask db p newId now).1 = .ok t →
      t.title = jsTrim (p.title.getD "") ∧
      t.description = (if truthy p.description then jsTrim (p.description.getD "") else "") ∧
      t.priority = (if truthy p.priority then p.priority.getD "" else "medium") ∧
      t.status = (if truthy p.status then p.status.getD "" else "pending")) ∧
    ((updateTask db id p now).1 = .ok t →
      (t.title = jsTrim (p.title.getD "") ∧
       t.description = (if truthy p.description then jsTrim (p.description.getD "") else "") ∧
       t.priority = (if truthy p.priority then p.priority.getD "" else "medium") ∧
       t.status = (if truthy p.status then p.status.getD "" else "pending")) ∧
      (p.priority = none → t.priority = "medium") ∧
      (p.status = none → t.status = "pending") ∧
      (p.description = none → t.description = "")) := by
  constructor
  · intro h
    obtain rfl := createTask_ok_inv db p newId now t h
    exact ⟨rfl, rfl, rfl, rfl⟩
  · intro h
    obtain ⟨u, -, rfl⟩ := updateTask_ok_inv db id p now t h
    refine ⟨⟨rfl, rfl, rfl, rfl⟩, ?_, ?_, ?_⟩
    · intro hp
      simp [applyUpdate, truthy, hp]
    · intro hs
      simp [applyUpdate, truthy, hs]
    · intro hd
      simp [applyUpdate, truthy, hd]

/-- C7, witness: updating a completed high-priority record with a payload
that omits `status` and `priority` resets them to `"pending"` and
`"medium"`. -/
theorem c7_defaults_witness :
    (updateTask [⟨0, "Write spec", "", "high", "completed", 1, 2⟩] 0
        ⟨some "Write spec", none, none, none⟩ 7).1 =
      .ok (applyUpdate ⟨some "Write spec", none, none, none⟩ 7
        ⟨0, "Write spec", "", "high", "completed", 1, 2⟩) ∧
    (applyUpdate ⟨some "Write spec", none, none, none⟩ 7
        ⟨0, "Write spec", "", "high", "completed", 1, 2⟩).status = "pending" ∧
    (applyUpdate ⟨some "Write spec", none, none, none⟩ 7
        ⟨0, "Write spec", "", "high", "completed", 1, 2⟩).priority = "medium" := by
  have h := (c7_defaults [⟨0, "Write spec", "", "high", "completed", 1, 2⟩] 0
    ⟨some "Write spec", none, none, none⟩ 0 7
    (applyUpdate ⟨some "Write spec", none, none, none⟩ 7
      ⟨0, "Write spec", "", "high", "completed", 1, 2⟩)).2 (by decide)
  exact ⟨by decide, h.2.2.1 rfl, h.2.1 rfl⟩

/-- C8: removing a present id returns the removed record and (with unique
ids) leaves no record under that id; while on an absent id — including one
just removed — get, update (with a payload that itself passes validation)
and remove all fail with NotFound. -/
theorem c8_remove_notfound (db : List Task) (id : Nat) (p : Payload) (now : Nat) (t : Task) :
    (findById db id = some t →
      (deleteTask db id).1 = .ok t ∧
      ((db.map Task.id).Nodup → findById (deleteTask db id).2 id = none)) ∧
    (findById db id = none →
      getTask db id = .error .NotFound ∧
      (deleteTask db id).1 = .error .NotFound ∧
      (validateTask p = .ok () →
        schemaViolations (jsTrim (p.title.getD ""))
          (if truthy p.description then jsTrim (p.description.getD "") else "") = [] →
        (updateTask db id p now).1 = .error .NotFound)) := by
  constructor
  · intro hf
    constructor
    · unfold deleteTask
      rw [hf]
    · intro hnd
      unfold deleteTask
      rw [hf]
      exact findById_eraseP db id hnd
  · intro hf
    refine ⟨?_, ?_, ?_⟩
    · unfold getTask
      rw [hf]
    · unfold deleteTask
      rw [hf]
    · intro hv hsv
      unfold updateTask
      rw [hv]
      simp only
      rw [hsv, hf]

/-- C8, witness: deleting the only record with id 0 returns it and a lookup
for id 0 afterwards finds nothing; get, delete and a valid update on an
absent id all report NotFound. -/
theorem c8_remove_notfound_witness :
    (deleteTask [⟨0, "a", "", "low", "pending", 0, 0⟩] 0).1 =
      .ok ⟨0, "a", "", "low", "pending", 0, 0⟩ ∧
    findById (deleteTask [⟨0, "a", "", "low", "pending", 0, 0⟩] 0).2 0 = none ∧
    getTask [] 5 = .error .NotFound ∧
    (deleteTask [] 5).1 = .error .NotFound ∧
    (updateTask [] 5 ⟨some "x", none, none, none⟩ 3).1 = .error .NotFound := by
  have h1 := (c8_remove_notfound [⟨0, "a", "", "low", "pending", 0, 0⟩] 0
    ⟨some "x", none, none, none⟩ 3 ⟨0, "a", "", "low", "pending", 0, 0⟩).1 (by decide)
  have h2 := (c8_remove_notfound [] 5 ⟨some "x", none, none, none⟩ 3
    ⟨0, "a", "", "low", "pending", 0, 0⟩).2 (by decide)
  exact ⟨h1.1, h1.2 (by decide), h2.1, h2.2.1, h2.2.2 (by decide) (by decide)⟩

/-- C9: a payload failing validation makes create return exactly that
failure with the collection unchanged — in particular `stats().total` is
unchanged — and a payload with a falsy title (absent or `""`) fails with
MissingField("title"). -/
theorem c9_create_atomic (db : List Task) (p : Payload) (newId now : Nat) (e : Err) :
    (validateTask p = .error e →
      createTask db p newId now = (.error e, db) ∧
      (getStats (createTask db p newId now).2).total = (getStats db).total) ∧
    (¬ truthy p.title →
      createTask db p newId now = (.error (.MissingField "title"), db)) := by
  constructor
  · intro hv
    have h : createTask db p newId now = (.error e, db) := by
      unfold createTask
      rw [hv]
    exact ⟨h, by rw [h]⟩
  · intro ht
    have hv : validateTask p = .error (.MissingField "title") := by
      unfold validateTask
      rw [if_pos (Or.inl ht)]
    unfold createTask
    rw [hv]

/-- C9, witness: `create({title: ""})` against a one-record store fails
with MissingField("title"), and the store and its stats total are
unchanged. -/
theorem c9_create_atomic_witness :
    createTask [⟨0, "a", "", "low", "pending", 0, 0⟩] ⟨some "", none, none, none⟩ 1 9 =
      (.error (.MissingField "title"), [⟨0, "a", "", "low", "pending", 0, 0⟩]) ∧
    (getStats (createTask [⟨0, "a", "", "low", "pending", 0, 0⟩]
        ⟨some "", none, none, none⟩ 1 9).2).total =
      (getStats [⟨0, "a", "", "low", "pending", 0, 0⟩]).total := by
  have h := (c9_create_atomic [⟨0, "a", "", "low", "pending", 0, 0⟩]
    ⟨some "", none, none, none⟩ 1 9 (.MissingField "title")).1 (by decide)
  exact ⟨h.1, h.2⟩

/-- C10: the sort direction is ascending only for the exact string
`"asc"`; any other value — `"ASC"`, a misspelling, the empty string —
yields the descending direction `-1` and the same result as `"desc"`,
rather than being rejected. -/
theorem c10_sort_direction (db : List Task) (status priority : Option String)
    (sortBy order : String) :
    sortDir "asc" = 1 ∧
    (order ≠ "asc" →
      sortDir order = -1 ∧
      listTasks db status priority sortBy order =
        listTasks db status priority sortBy "desc") := by
  refine ⟨by decide, ?_⟩
  intro h
  have hdir : sortDir order = -1 := by
    unfold sortDir
    rw [if_neg h]
  have hle : taskLe sortBy order = taskLe sortBy "desc" := by
    funext a b
    unfold taskLe
    rw [hdir, show sortDir "desc" = -1 by decide]
  refine ⟨hdir, ?_⟩
  unfold listTasks
  rw [hle]

/-- C10, witness: the order value `"ASC"` is not `"asc"`, maps to direction
`-1`, and lists a two-record store exactly as `"desc"` does. -/
theorem c10_sort_direction_witness :
    "ASC" ≠ "asc" ∧ sortDir "ASC" = -1 ∧
    listTasks [⟨0, "a", "", "low", "pending", 0, 0⟩, ⟨1, "b", "", "high", "pending", 2, 2⟩]
        none none "createdAt" "ASC" =
      listTasks [⟨0, "a", "", "low", "pending", 0, 0⟩, ⟨1, "b", "", "high", "pending", 2, 2⟩]
        none none "createdAt" "desc" := by
  have h := (c10_sort_direction
    [⟨0, "a", "", "low", "pending", 0, 0⟩, ⟨1, "b", "", "high", "pending", 2, 2⟩]
    none none "createdAt" "ASC").2 (by decide)
  exact ⟨by decide, h.1, h.2⟩

end TaskManager
